import Mathlib

/-!
# Verification of the deskofthefuture eligibility / authorization engine

Shallow embedding of the decision logic of the repository:

* the app-access matrix evaluator (`getUserAccessibleApps`, routes/applications),
* department eligibility, auto-assignment and primary-department selection
  (`GET /api/onboarding/eligible`, `getHighestPriorityDepartment`),
* form eligibility (`FirebaseService.checkFormEligibility`),
* the automated submission scorer's recommendation step and quiz scorer
  (`FirebaseService.evaluateFormSubmission`, `evaluateQuizResponse`),
* session registration with its capacity guard (`FirebaseService.registerForSession`),
* the assignment-task status state machine (`PATCH /api/assignments/:id/status`).

JavaScript conveniences are modelled explicitly: absent object fields are
`Option`, JS truthiness tests on numbers treat `0` like absence, comparisons
against `undefined` evaluate to `false` (NaN semantics), and `[...new Set xs]`
is a first-occurrence deduplication.  Backing-store writes are modelled by
threading the touched record through the function and returning the updated
record; an early `return`/`throw` before the write therefore leaves the
threaded record unchanged, exactly as in the source, where all guard checks
precede every write.
-/

namespace DOF

/-- Result shape `{eligible, reason}` used by all eligibility checks. -/
structure EligibilityResult where
  eligible : Bool
  reason : Option String
  deriving Repr, DecidableEq

/-! ## App access matrix (routes/applications file)

`APP_ACCESS_MATRIX` from the source, as an association list in the object's
key-insertion order (the order `Object.values` enumerates). -/

def APP_ACCESS_MATRIX : List (String × List String) :=
  [("universal", ["maia", "forms", "bake", "dof", "community", "sessions"]),
   ("corporate", ["oam-corporate", "uvm-corporate", "pvm-corporate", "courses-corporate",
                  "forms-manager", "assignments-manager"]),
   ("moderation", ["oam-basic", "uvm-basic", "courses-moderation", "bake-mod", "assignments"]),
   ("public-relations", ["partners", "pvm-basic", "bake-partners", "courses-pr", "assignments"]),
   ("talent-acquisition", ["uvm-basic", "myhr-manager", "courses-ta", "bake-hr", "assignments"]),
   ("hr", ["myhr-basic", "performance", "courses-hr", "bake", "sessions-manager",
           "forms-manager", "employee-directory", "assignments-manager"]),
   ("mr", ["myhr-basic", "performance", "courses-mr", "bake", "sessions-manager-basic",
           "employee-directory", "assignments"]),
   ("lr", ["myhr-basic", "performance", "courses-mr", "bake", "sessions"])]

/-- `Object.values(APP_ACCESS_MATRIX).flat()`. -/
def allMatrixApps : List String := (APP_ACCESS_MATRIX.map Prod.snd).flatten

/-- First-occurrence deduplication, the behaviour of `[...new Set(xs)]`;
`seen` accumulates the elements already emitted. -/
def jsDedupAux (seen : List String) : List String → List String
  | [] => []
  | x :: xs => if x ∈ seen then jsDedupAux seen xs else x :: jsDedupAux (x :: seen) xs

def jsDedup (l : List String) : List String := jsDedupAux [] l

/-- `PERMISSION_LEVELS` constants used by the matrix evaluator. -/
def PERMISSION_LEVELS_BASIC : Nat := 1
def PERMISSION_LEVELS_CORPORATE : Nat := 5
def PERMISSION_LEVELS_DEVELOPER : Nat := 10

/-- `userData?.permissions?.level || PERMISSION_LEVELS.BASIC`: an absent level
and a stored level `0` (both falsy in JS) default to `1`. -/
def resolveLevel : Option Nat → Nat
  | none => PERMISSION_LEVELS_BASIC
  | some 0 => PERMISSION_LEVELS_BASIC
  | some n => n

/-- `getUserAccessibleApps` from the source, over the resolved department
group (`getUserDepartmentGroup`) and the raw stored permission level. -/
def getUserAccessibleApps (userDepartment : String) (rawLevel : Option Nat) : List String :=
  let userLevel := resolveLevel rawLevel
  let accessibleApps := (APP_ACCESS_MATRIX.lookup "universal").getD []
  if userLevel ≥ PERMISSION_LEVELS_DEVELOPER then
    jsDedup allMatrixApps
  else if userDepartment = "corporate" ∨ userLevel ≥ PERMISSION_LEVELS_CORPORATE then
    jsDedup allMatrixApps
  else
    match APP_ACCESS_MATRIX.lookup userDepartment with
    | some deptApps => jsDedup (accessibleApps ++ deptApps)
    | none => jsDedup accessibleApps

/-! ## Department eligibility and auto-assignment (routes/onboarding.js) -/

/-- One entry of the `groupId -> {name, rank}` map built from the external
group-membership service response. -/
structure GroupInfo where
  name : String
  rank : Int
  deriving Repr, DecidableEq

/-- A `members/{uid}` record of a department. -/
structure MemberEntry where
  joinedAt : Int
  role : String
  rank : Int
  deriving Repr, DecidableEq

/-- `dept.settings`; `requiredRole` is `none` when absent or not a number
(the source tests `typeof dept.settings?.requiredRole === "number"`), and
`autoApprove` is the truthiness of `dept.settings.autoApprove`. -/
structure DeptSettings where
  requiredRole : Option Int
  autoApprove : Bool
  deriving Repr, DecidableEq

/-- A department record as read from `/departments/{id}`. -/
structure Department where
  isActive : Bool
  groupId : String
  name : Option String
  settings : Option DeptSettings
  members : List (String × MemberEntry)
  deriving Repr, DecidableEq

/-- The per-department record pushed into `deptResults` by the handler. -/
structure DeptResult where
  id : String
  name : String
  role : Option String
  rank : Option Int
  eligible : Bool
  status : String
  deriving Repr, DecidableEq

/-- Outcome of the per-department loop body: the pushed result (`none` when
the department is inactive and the body returns early), the department's
members map after the body ran, and whether `id` was pushed onto `autoAdd`. -/
structure DeptOutcome where
  result : Option DeptResult
  members : List (String × MemberEntry)
  autoAdded : Bool
  deriving Repr, DecidableEq

/-- `typeof dept.settings?.requiredRole === "number" ? dept.settings.requiredRole : 0`. -/
def deptRequiredRank (dept : Department) : Int :=
  match dept.settings with
  | some s => s.requiredRole.getD 0
  | none => 0

/-- Truthiness of `dept.settings?.autoApprove`. -/
def deptAutoApprove (dept : Department) : Bool :=
  match dept.settings with
  | some s => s.autoApprove
  | none => false

/-- Body of the per-department loop of `GET /api/onboarding/eligible`
(the `Object.entries(departments).map` callback).  The only write it can
issue is `set` on `/departments/{id}/members/{uid}`, modelled by extending
the returned members map. -/
def processDepartment (id : String) (dept : Department) (uid : String)
    (groupRoleMap : List (String × GroupInfo)) (isMainGroupMember : Bool)
    (now : Int) : DeptOutcome :=
  if !dept.isActive then ⟨none, dept.members, false⟩
  else
    let groupInfo := groupRoleMap.lookup dept.groupId
    let userRank : Option Int := groupInfo.map (fun g => g.rank)
    let userRoleName : Option String := groupInfo.map (fun g => g.name)
    let requiredRank : Int := deptRequiredRank dept
    let memberIds := dept.members.map Prod.fst
    if uid ∈ memberIds then
      ⟨some ⟨id, dept.name.getD "", userRoleName, userRank, true, "active"⟩,
       dept.members, false⟩
    else
      match groupInfo with
      | some gi =>
        if isMainGroupMember ∧ requiredRank ≤ gi.rank then
          if deptAutoApprove dept then
            ⟨some ⟨id, dept.name.getD "", userRoleName, userRank, true, "active"⟩,
             dept.members ++ [(uid, ⟨now, gi.name, gi.rank⟩)], true⟩
          else
            ⟨some ⟨id, dept.name.getD "", userRoleName, userRank, true, "pending"⟩,
             dept.members, false⟩
        else
          ⟨some ⟨id, dept.name.getD "", userRoleName, userRank, false, "ineligible"⟩,
           dept.members, false⟩
      | none =>
        ⟨some ⟨id, dept.name.getD "", userRoleName, userRank, false, "ineligible"⟩,
         dept.members, false⟩

/-- `DEPARTMENT_HIERARCHY`, high to low priority. -/
def DEPARTMENT_HIERARCHY : List String :=
  ["corporate", "moderation", "public-relations", "talent-acquisition", "hr", "mr", "lr"]

/-- Position of a department id in the hierarchy.  JS `indexOf` yields `-1`
for an absent id and the comparator sends `-1` after every present index;
mapping absence to the list length induces the same order
(`List.indexOf` returns the length when the element is absent). -/
def hierIdx (deptId : String) : Nat := DEPARTMENT_HIERARCHY.indexOf deptId

/-- One step of extracting the head of the stable sort by hierarchy priority:
keep the earlier element unless the later one is strictly higher priority.
The head of a stable sort under the source's comparator is exactly the first
list element whose `hierIdx` is minimal, i.e. the result of folding this
step over the list. -/
def pickHigher (a b : DeptResult) : DeptResult :=
  if hierIdx b.id < hierIdx a.id then b else a

/-- `getHighestPriorityDepartment`: filter to the eligible results, stable
sort by hierarchy priority, return the first id (or `null`). -/
def getHighestPriorityDepartment (eligibleDepartments : List DeptResult) : Option String :=
  match eligibleDepartments.filter (fun d => d.eligible) with
  | [] => none
  | x :: xs => some (xs.foldl pickHigher x).id

/-- JS truthiness of an optional string: `undefined`/`null` and `""` are
falsy. -/
def jsTruthyStr : Option String → Bool
  | none => false
  | some s => s != ""

/-- The primary-department auto-selection step at the end of the handler:
`stored` is `userData?.onboarding?.primaryDepartment`.  Returns the value of
`onboarding/primaryDepartment` after the request together with whether the
`updateUser` write was issued. -/
def autoSelectPrimary (stored : Option String) (deptResults : List DeptResult) :
    Option String × Bool :=
  if jsTruthyStr stored then (stored, false)
  else if deptResults.length > 0 then
    match getHighestPriorityDepartment deptResults with
    | some d => (some d, true)
    | none => (stored, false)
  else (stored, false)

/-! ## Form eligibility (`FirebaseService.checkFormEligibility`) -/

/-- `form.requirements` fields consulted by the check. -/
structure FormRequirements where
  minLevel : Option Int
  minDaysActive : Option Int
  requiredDepartments : Option (List String)
  blacklistedRoles : Option (List String)
  deriving Repr, DecidableEq

/-- A form template; only `requirements` is consulted (`form.requirements
|| {}` makes every check skip when it is absent). -/
structure Form where
  requirements : Option FormRequirements
  deriving Repr, DecidableEq

/-- The user-record fields the form check reads (`permissions.level`,
`permissions.department`, `permissions.role`, `activity.createdAt`). -/
structure FUser where
  level : Option Int
  department : Option String
  role : Option String
  createdAt : Option Int
  deriving Repr, DecidableEq

/-- A form submission; only `status` is consulted by the guard. -/
structure Submission where
  status : String
  deriving Repr, DecidableEq

/-- Duplicate-submission guard as written in the source after the
submissions fetch: block when any fetched submission has status "pending"
or "approved", otherwise return `{eligible: true, reason: null}`.  This
expression is dead code in the program — see `formSubmissionsQuery`. -/
def formDupCheck (subs : List Submission) : EligibilityResult :=
  if subs.length > 0 then
    if subs.any (fun s => s.status == "pending" || s.status == "approved") then
      ⟨false, some "Already submitted or approved"⟩
    else ⟨true, none⟩
  else ⟨true, none⟩

/-- The existing-submissions fetch of `checkFormEligibility`.  The source
chains `orderByChild("userId").equalTo(userId).orderByChild("formId")
.equalTo(formId)` on a single query; the Firebase Realtime Database SDK
permits one order-by per query and the second `orderByChild` throws
synchronously (a "cannot combine multiple orderBy calls" error), so the
awaited fetch rejects instead of producing a snapshot.  Consequently the
duplicate guard (`formDupCheck`) and the `{eligible: true}` return after it
are unreachable. -/
def formSubmissionsQuery : Except String (List Submission) :=
  Except.error "Cannot combine multiple orderBy calls"

/-- `requirements.blacklistedRoles` check (`includes(undefined)` is false,
so an absent role never matches); on pass the function proceeds to the
submissions fetch, which throws. -/
def formRolesCheck (reqs : FormRequirements) (u : FUser) :
    Except String EligibilityResult :=
  match reqs.blacklistedRoles with
  | some rs =>
    if (match u.role with | some r => decide (r ∈ rs) | none => false) then
      Except.ok ⟨false, some "Role restriction applies"⟩
    else formSubmissionsQuery.map formDupCheck
  | none => formSubmissionsQuery.map formDupCheck

/-- `requirements.requiredDepartments` check; a present empty list is truthy
in JS and then fails every user. -/
def formDeptsCheck (reqs : FormRequirements) (u : FUser) :
    Except String EligibilityResult :=
  match reqs.requiredDepartments with
  | some ds =>
    if (match u.department with | some d => decide (d ∈ ds) | none => false) then
      formRolesCheck reqs u
    else Except.ok ⟨false, some "Department requirement not met"⟩
  | none => formRolesCheck reqs u

/-- `requirements.minDaysActive` check: `(now - activity.createdAt) /
86400000 < minDaysActive` fails; a falsy `minDaysActive` (absent or `0`)
skips, and an absent `createdAt` makes the quotient NaN, which never
compares below the bound.  The real-number comparison is stated
denominator-cleared, which is exact. -/
def formDaysCheck (reqs : FormRequirements) (u : FUser) (now : Int) :
    Except String EligibilityResult :=
  match reqs.minDaysActive with
  | some m =>
    if m != 0 &&
        (match u.createdAt with
         | some c => decide (now - c < m * 86400000)
         | none => false) then
      Except.ok ⟨false, some ("Must be active for " ++ toString m ++ " days")⟩
    else formDeptsCheck reqs u
  | none => formDeptsCheck reqs u

/-- `requirements.minLevel` check: falsy `minLevel` (absent or `0`) skips;
an absent user level compares as NaN and never fails. -/
def formLevelCheck (reqs : FormRequirements) (u : FUser) (now : Int) :
    Except String EligibilityResult :=
  match reqs.minLevel with
  | some m =>
    if m != 0 && (match u.level with | some l => decide (l < m) | none => false) then
      Except.ok ⟨false, some ("Minimum level " ++ toString m ++ " required")⟩
    else formDaysCheck reqs u now
  | none => formDaysCheck reqs u now

/-- `FirebaseService.checkFormEligibility`, over the fetched form and user.
An `Except.ok` value is a returned `EligibilityResult`; `Except.error`
models the exception the broken submissions query throws once every
requirement check has passed. -/
def checkFormEligibility (form : Option Form) (user : Option FUser)
    (now : Int) : Except String EligibilityResult :=
  match form, user with
  | none, _ => Except.ok ⟨false, some "Form or user not found"⟩
  | some _, none => Except.ok ⟨false, some "Form or user not found"⟩
  | some f, some u =>
    formLevelCheck (f.requirements.getD ⟨none, none, none, none⟩) u now

/-! ## Automated scorer: recommendation step and quiz scoring
(`FirebaseService.evaluateFormSubmission`, `evaluateQuizResponse`) -/

/-- `form.autoEvaluation?.thresholds` shape. -/
structure Thresholds where
  autoApprove : Nat
  autoReject : Nat
  manualReview : Nat
  deriving Repr, DecidableEq

/-- Default thresholds applied when the form carries none. -/
def defaultThresholds : Thresholds := ⟨85, 40, 60⟩

/-- The recommendation if-chain at the end of `evaluateFormSubmission`. -/
def recommendationFor (overallScore : Nat) (t : Thresholds) : String :=
  if overallScore ≥ t.autoApprove then "approve"
  else if overallScore ≤ t.autoReject then "reject"
  else "review"

/-- `Math.round (100 * c / n)` for naturals `c ≤ n`, `0 < n`:
round-half-up equals `⌊(200c + n) / (2n)⌋`. -/
def roundPct (c n : Nat) : Nat := (200 * c + n) / (2 * n)

/-- `FirebaseService.evaluateQuizResponse`.  `answers` is
`response.answers` when the response exists and that field is an array
(`none` models the missing/invalid cases that return `0` early); answer
values and `question.correct` values are opaque and only compared with
`===`, modelled as `Nat`.  `answers[index]` beyond the array is `undefined`
and never equal to a stored answer.  When `questions` is empty the source
computes `Math.round(0/0 * 100) = NaN`, modelled as `none`. -/
def evaluateQuizResponse (answers : Option (List Nat)) (questions : List Nat) :
    Option Nat :=
  match answers with
  | none => some 0
  | some ans =>
    let totalQuestions := questions.length
    let correctAnswers :=
      (questions.enum.filter (fun p => ans.get? p.1 == some p.2)).length
    if totalQuestions = 0 then none
    else some (roundPct correctAnswers totalQuestions)

/-! ## Session registration (`FirebaseService.registerForSession`) -/

/-- `session.capacity`. -/
structure Capacity where
  min : Int
  max : Int
  current : Int
  deriving Repr, DecidableEq

/-- `session.requirements`. -/
structure SessionRequirements where
  minLevel : Option Int
  departments : Option (List String)
  deriving Repr, DecidableEq

/-- An attendee record as pushed by `registerForSession`. -/
structure Attendee where
  userId : String
  status : String
  registeredAt : Int
  deriving Repr, DecidableEq

/-- A session record; the fields registration touches. -/
structure Session where
  capacity : Capacity
  requirements : Option SessionRequirements
  attendees : List Attendee
  deriving Repr, DecidableEq

/-- The user-record fields `checkSessionEligibility` reads. -/
structure SUser where
  level : Option Int
  department : Option String
  deriving Repr, DecidableEq

/-- Duplicate-registration guard at the end of `checkSessionEligibility`. -/
def sessionDupCheck (session : Session) (userId : String) : EligibilityResult :=
  if session.attendees.any (fun a => a.userId == userId) then
    ⟨false, some "Already registered for this session"⟩
  else ⟨true, none⟩

/-- `session.requirements?.departments` check; a present empty list is
truthy in JS and fails every user. -/
def sessionDeptCheck (session : Session) (u : SUser) (userId : String) : EligibilityResult :=
  match session.requirements.bind (fun r => r.departments) with
  | some ds =>
    if (match u.department with | some d => decide (d ∈ ds) | none => false) then
      sessionDupCheck session userId
    else ⟨false, some "Department requirement not met"⟩
  | none => sessionDupCheck session userId

/-- `session.requirements?.minLevel` check: falsy `minLevel` skips, an
absent user level compares as NaN and never fails. -/
def sessionMinLevelCheck (session : Session) (u : SUser) (userId : String) :
    EligibilityResult :=
  match session.requirements.bind (fun r => r.minLevel) with
  | some m =>
    if m != 0 && (match u.level with | some l => decide (l < m) | none => false) then
      ⟨false, some ("Minimum level " ++ toString m ++ " required")⟩
    else sessionDeptCheck session u userId
  | none => sessionDeptCheck session u userId

/-- `FirebaseService.checkSessionEligibility` over the fetched user. -/
def checkSessionEligibility (session : Session) (user : Option SUser)
    (userId : String) : EligibilityResult :=
  match user with
  | none => ⟨false, some "User not found"⟩
  | some u => sessionMinLevelCheck session u userId

/-- `FirebaseService.registerForSession`.  `store` is the session record at
`/sessions/sessions/{id}` (`none` when absent); the function returns the
source's result (`throw` as `Except.error`, the `return true` as `Except.ok
true`) together with the stored record after the call.  Both writes — the
`push` onto `attendees` and the capacity transaction `count => (count || 0)
+ 1` — happen only after every guard passed, as in the source. -/
def registerForSession (store : Option Session) (user : Option SUser)
    (userId : String) (now : Int) : Except String Bool × Option Session :=
  match store with
  | none => (Except.error "Session not found", store)
  | some session =>
    if session.capacity.current ≥ session.capacity.max then
      (Except.error "Session is full", store)
    else
      let userEligible := checkSessionEligibility session user userId
      if userEligible.eligible then
        (Except.ok true,
         some { session with
                attendees := session.attendees ++ [⟨userId, "confirmed", now⟩],
                capacity := { session.capacity with
                              current := session.capacity.current + 1 } })
      else
        (Except.error (userEligible.reason.getD ""), store)

/-! ## Assignment-task status transitions
(`PATCH /api/assignments/:assignmentId/status`) -/

/-- An assignment task; the fields the handler consults. -/
structure Assignment where
  assignedTo : String
  status : String
  deriving Repr, DecidableEq

/-- `validTransitions` from the handler. -/
def validTransitions : List (String × List String) :=
  [("pending", ["in_progress"]),
   ("in_progress", ["under_review", "pending"]),
   ("under_review", ["completed", "in_progress"]),
   ("completed", [])]

/-- The status-update handler after the assignment was found: `userId` is
the requester, `rawLevel` their `permissions?.level` (`|| 0` default).
Returns the HTTP error (as `Except.error`) or success, together with the
assignment's status after the request — the `update` write happens only on
the success path, after every guard, as in the source. -/
def updateAssignmentStatus (assignment : Assignment) (target : String)
    (userId : String) (rawLevel : Option Nat) : Except String Unit × Assignment :=
  let userPermissionLevel := rawLevel.getD 0
  let isAssignedUser := assignment.assignedTo == userId
  let isManager := decide (5 ≤ userPermissionLevel)
  if !isAssignedUser && !isManager then
    (Except.error "Not authorized to update this assignment", assignment)
  else if !isManager && isAssignedUser &&
      assignment.status == "under_review" && target != "in_progress" then
    (Except.error "Only managers can approve assignments", assignment)
  else if !((validTransitions.lookup assignment.status).getD []).contains target then
    (Except.error ("Invalid status transition from " ++ assignment.status ++
                   " to " ++ target), assignment)
  else
    (Except.ok (), { assignment with status := target })

/-! ## Theorems -/

/-- `pickHigher` returns one of its arguments. -/
theorem pickHigher_eq_or (a b : DeptResult) : pickHigher a b = a ∨ pickHigher a b = b := by
  unfold pickHigher
  split
  · exact Or.inr rfl
  · exact Or.inl rfl

/-- `pickHigher` does not increase the hierarchy index. -/
theorem hierIdx_pickHigher_le (a b : DeptResult) :
    hierIdx (pickHigher a b).id ≤ hierIdx a.id ∧ hierIdx (pickHigher a b).id ≤ hierIdx b.id := by
  unfold pickHigher
  split
  · omega
  · omega

/-- The fold over `pickHigher` stays within the input elements. -/
theorem foldl_pickHigher_mem :
    ∀ (xs : List DeptResult) (x : DeptResult),
      xs.foldl pickHigher x = x ∨ xs.foldl pickHigher x ∈ xs := by
  intro xs
  induction xs with
  | nil => intro x; simp
  | cons y ys ih =>
    intro x
    simp only [List.foldl_cons]
    rcases ih (pickHigher x y) with h | h
    · rcases pickHigher_eq_or x y with h2 | h2
      · exact Or.inl (h.trans h2)
      · exact Or.inr (by rw [h, h2]; exact List.mem_cons_self _ _)
    · exact Or.inr (List.mem_cons_of_mem _ h)

/-- The fold over `pickHigher` minimizes the hierarchy index. -/
theorem foldl_pickHigher_min :
    ∀ (xs : List DeptResult) (x : DeptResult),
      hierIdx (xs.foldl pickHigher x).id ≤ hierIdx x.id ∧
      ∀ e ∈ xs, hierIdx (xs.foldl pickHigher x).id ≤ hierIdx e.id := by
  intro xs
  induction xs with
  | nil => intro x; simp
  | cons y ys ih =>
    intro x
    simp only [List.foldl_cons]
    obtain ⟨ih1, ih2⟩ := ih (pickHigher x y)
    obtain ⟨hxa, hxb⟩ := hierIdx_pickHigher_le x y
    refine ⟨ih1.trans hxa, ?_⟩
    intro e he
    rcases List.mem_cons.mp he with rfl | he'
    · exact ih1.trans hxb
    · exact ih2 e he'

/-- C1: once a primary department is persisted (a non-empty stored string —
the source tests JS truthiness), the eligibility computation returns it
unchanged and issues no `updateUser` write; conversely, the auto-selection
write happens only when no primary department is stored (absent or the
falsy empty string). -/
theorem autoSelectPrimary_idempotent :
    (∀ (d : String) (l : List DeptResult), d ≠ "" →
      autoSelectPrimary (some d) l = (some d, false)) ∧
    (∀ (stored : Option String) (l : List DeptResult),
      (autoSelectPrimary stored l).2 = true → stored = none ∨ stored = some "") := by
  constructor
  · intro d l hd
    unfold autoSelectPrimary
    have ht : jsTruthyStr (some d) = true := by
      simp [jsTruthyStr, hd]
    rw [ht]
    simp
  · intro stored l h
    match hs : stored with
    | none => exact Or.inl rfl
    | some s =>
      by_cases hse : s = ""
      · exact Or.inr (by rw [hse])
      · exfalso
        have ht : jsTruthyStr (some s) = true := by simp [jsTruthyStr, hse]
        unfold autoSelectPrimary at h
        rw [ht] at h
        simp at h

/-- Witness for C1 at a concrete persisted department. -/
theorem autoSelectPrimary_idempotent_witness :
    autoSelectPrimary (some "hr")
      [⟨"moderation", "Moderation", some "Mod", some 5, true, "pending"⟩] =
      (some "hr", false) :=
  autoSelectPrimary_idempotent.1 "hr" _ (by decide)

/-- C2: an active department with `autoApprove` false, for a newly eligible
non-member (main-group member, backing-group rank at or above the required
rank, not yet in `members`): the loop body leaves `members` unchanged, does
not push onto `autoAdd`, and reports status "pending". -/
theorem autoApprove_false_pending (id : String) (dept : Department) (uid : String)
    (groupRoleMap : List (String × GroupInfo)) (now : Int) (gi : GroupInfo)
    (hactive : dept.isActive = true)
    (hmem : uid ∉ dept.members.map Prod.fst)
    (hgi : groupRoleMap.lookup dept.groupId = some gi)
    (hrank : deptRequiredRank dept ≤ gi.rank)
    (hauto : deptAutoApprove dept = false) :
    processDepartment id dept uid groupRoleMap true now =
      ⟨some ⟨id, dept.name.getD "", some gi.name, some gi.rank, true, "pending"⟩,
       dept.members, false⟩ := by
  unfold processDepartment
  simp [hactive, hgi, hmem, hrank, hauto]

/-- Witness for C2 on a concrete department and membership snapshot. -/
theorem autoApprove_false_pending_witness :
    processDepartment "moderation"
      ⟨true, "g7", some "Moderation", some ⟨some 3, false⟩, []⟩
      "u1" [("g7", ⟨"Officer", 5⟩)] true 1000 =
      ⟨some ⟨"moderation", "Moderation", some "Officer", some 5, true, "pending"⟩,
       [], false⟩ :=
  autoApprove_false_pending "moderation"
    ⟨true, "g7", some "Moderation", some ⟨some 3, false⟩, []⟩
    "u1" [("g7", ⟨"Officer", 5⟩)] 1000 ⟨"Officer", 5⟩
    rfl (by decide) (by decide) (by decide) rfl

/-- C3: an active department with `autoApprove` true, for a newly eligible
non-member: the loop body writes `{joinedAt, role, rank}` captured from the
backing-group membership into `members`, reports status "active" and pushes
the department onto `autoAdd`. -/
theorem autoApprove_true_active (id : String) (dept : Department) (uid : String)
    (groupRoleMap : List (String × GroupInfo)) (now : Int) (gi : GroupInfo)
    (hactive : dept.isActive = true)
    (hmem : uid ∉ dept.members.map Prod.fst)
    (hgi : groupRoleMap.lookup dept.groupId = some gi)
    (hrank : deptRequiredRank dept ≤ gi.rank)
    (hauto : deptAutoApprove dept = true) :
    processDepartment id dept uid groupRoleMap true now =
      ⟨some ⟨id, dept.name.getD "", some gi.name, some gi.rank, true, "active"⟩,
       dept.members ++ [(uid, ⟨now, gi.name, gi.rank⟩)], true⟩ := by
  unfold processDepartment
  simp [hactive, hgi, hmem, hrank, hauto]

/-- Witness for C3 on a concrete department and membership snapshot. -/
theorem autoApprove_true_active_witness :
    processDepartment "hr"
      ⟨true, "g9", some "HR", some ⟨some 2, true⟩, [("u0", ⟨5, "Lead", 9⟩)]⟩
      "u1" [("g9", ⟨"Staff", 4⟩)] true 2000 =
      ⟨some ⟨"hr", "HR", some "Staff", some 4, true, "active"⟩,
       [("u0", ⟨5, "Lead", 9⟩), ("u1", ⟨2000, "Staff", 4⟩)], true⟩ :=
  autoApprove_true_active "hr"
    ⟨true, "g9", some "HR", some ⟨some 2, true⟩, [("u0", ⟨5, "Lead", 9⟩)]⟩
    "u1" [("g9", ⟨"Staff", 4⟩)] 2000 ⟨"Staff", 4⟩
    rfl (by decide) (by decide) (by decide) rfl

/-- C4: when at least one per-department result is eligible, the handler's
auto-selection returns an eligible department of minimal hierarchy index
(absent departments index past the end of `DEPARTMENT_HIERARCHY` and so sort
last); in particular a user eligible for both "moderation" and "hr" gets
"moderation", in either listing order. -/
theorem getHighestPriorityDepartment_spec (l : List DeptResult)
    (h : ∃ d ∈ l, d.eligible = true) :
    (∃ d ∈ l, d.eligible = true ∧ getHighestPriorityDepartment l = some d.id ∧
      ∀ e ∈ l, e.eligible = true → hierIdx d.id ≤ hierIdx e.id) ∧
    getHighestPriorityDepartment
      [⟨"moderation", "Moderation", none, none, true, "active"⟩,
       ⟨"hr", "HR", none, none, true, "pending"⟩] = some "moderation" ∧
    getHighestPriorityDepartment
      [⟨"hr", "HR", none, none, true, "pending"⟩,
       ⟨"moderation", "Moderation", none, none, true, "active"⟩] = some "moderation" := by
  refine ⟨?_, by rfl, by rfl⟩
  have hne : l.filter (fun d => d.eligible) ≠ [] := by
    obtain ⟨d, hd, he⟩ := h
    intro hcon
    have : d ∈ l.filter (fun d => d.eligible) := List.mem_filter.mpr ⟨hd, by simp [he]⟩
    rw [hcon] at this
    exact List.not_mem_nil d this
  rcases hfil : l.filter (fun d => d.eligible) with _ | ⟨x, xs⟩
  · exact absurd hfil hne
  have hres : getHighestPriorityDepartment l = some (xs.foldl pickHigher x).id := by
    unfold getHighestPriorityDepartment
    rw [hfil]
  have hdmem : xs.foldl pickHigher x ∈ x :: xs := by
    rcases foldl_pickHigher_mem xs x with h1 | h1
    · rw [h1]; exact List.mem_cons_self _ _
    · exact List.mem_cons_of_mem _ h1
  have hdfil : xs.foldl pickHigher x ∈ l.filter (fun d => d.eligible) := by
    rw [hfil]; exact hdmem
  refine ⟨xs.foldl pickHigher x, (List.mem_filter.mp hdfil).1, ?_, hres, ?_⟩
  · have := (List.mem_filter.mp hdfil).2
    simpa using this
  · intro e he helig
    have hefil : e ∈ x :: xs := by
      rw [← hfil]
      exact List.mem_filter.mpr ⟨he, by simp [helig]⟩
    obtain ⟨h1, h2⟩ := foldl_pickHigher_min xs x
    rcases List.mem_cons.mp hefil with rfl | he'
    · exact h1
    · exact h2 e he'

/-- Witness for C4: the moderation-over-hr instance, through the general
minimality statement. -/
theorem getHighestPriorityDepartment_spec_witness :
    getHighestPriorityDepartment
      [⟨"moderation", "Moderation", none, none, true, "active"⟩,
       ⟨"hr", "HR", none, none, true, "pending"⟩] = some "moderation" :=
  (getHighestPriorityDepartment_spec
    [⟨"moderation", "Moderation", none, none, true, "active"⟩]
    ⟨⟨"moderation", "Moderation", none, none, true, "active"⟩,
     List.mem_cons_self _ _, rfl⟩).2.1

/-- Membership in `jsDedupAux`: an element is kept exactly when it occurs in
the input and was not already seen. -/
theorem mem_jsDedupAux (a : String) :
    ∀ (l seen : List String), a ∈ jsDedupAux seen l ↔ a ∈ l ∧ a ∉ seen := by
  intro l
  induction l with
  | nil => intro seen; simp [jsDedupAux]
  | cons x xs ih =>
    intro seen
    unfold jsDedupAux
    by_cases hx : x ∈ seen
    · rw [if_pos hx, ih]
      constructor
      · rintro ⟨h1, h2⟩
        exact ⟨List.mem_cons_of_mem _ h1, h2⟩
      · rintro ⟨h1, h2⟩
        rcases List.mem_cons.mp h1 with rfl | h1'
        · exact absurd hx h2
        · exact ⟨h1', h2⟩
    · rw [if_neg hx]
      constructor
      · intro hmem
        rcases List.mem_cons.mp hmem with rfl | h'
        · exact ⟨List.mem_cons_self _ _, hx⟩
        · have := (ih (x :: seen)).mp h'
          exact ⟨List.mem_cons_of_mem _ this.1,
                 fun hc => this.2 (List.mem_cons_of_mem _ hc)⟩
      · rintro ⟨h1, h2⟩
        rcases List.mem_cons.mp h1 with rfl | h1'
        · exact List.mem_cons_self _ _
        · by_cases hax : a = x
          · subst hax; exact List.mem_cons_self _ _
          · refine List.mem_cons_of_mem _ ((ih (x :: seen)).mpr ⟨h1', ?_⟩)
            intro hc
            rcases List.mem_cons.mp hc with h | h
            · exact hax h
            · exact h2 h

/-- `jsDedupAux` emits no duplicates. -/
theorem nodup_jsDedupAux : ∀ (l seen : List String), (jsDedupAux seen l).Nodup := by
  intro l
  induction l with
  | nil => intro seen; simp [jsDedupAux]
  | cons x xs ih =>
    intro seen
    unfold jsDedupAux
    by_cases hx : x ∈ seen
    · rw [if_pos hx]; exact ih seen
    · rw [if_neg hx]
      refine List.nodup_cons.mpr ⟨?_, ih (x :: seen)⟩
      intro hc
      exact ((mem_jsDedupAux x xs (x :: seen)).mp hc).2 (List.mem_cons_self _ _)

/-- `jsDedup` preserves membership. -/
theorem mem_jsDedup (a : String) (l : List String) : a ∈ jsDedup l ↔ a ∈ l := by
  unfold jsDedup
  rw [mem_jsDedupAux]
  simp

/-- `jsDedup` removes all duplicates. -/
theorem nodup_jsDedup (l : List String) : (jsDedup l).Nodup := nodup_jsDedupAux l []

/-- Membership in the flattened matrix is membership in some category set. -/
theorem mem_allMatrixApps (a : String) :
    a ∈ allMatrixApps ↔ ∃ p ∈ APP_ACCESS_MATRIX, a ∈ p.2 := by
  unfold allMatrixApps
  rw [List.mem_flatten]
  constructor
  · rintro ⟨s, hs, ha⟩
    obtain ⟨p, hp, rfl⟩ := List.mem_map.mp hs
    exact ⟨p, hp, ha⟩
  · rintro ⟨p, hp, ha⟩
    exact ⟨p.2, List.mem_map.mpr ⟨p, hp, rfl⟩, ha⟩

/-- C5: the accessible-app list is duplicate-free; for a resolved level of
at least 10, a corporate department, or a resolved level of at least 5, it
contains exactly the union of every category set of the matrix (the full app
universe); for every other profile it contains exactly the universal set
plus the department's matrix entry when one exists. -/
theorem getUserAccessibleApps_spec (userDepartment : String) (rawLevel : Option Nat) :
    (getUserAccessibleApps userDepartment rawLevel).Nodup ∧
    ((10 ≤ resolveLevel rawLevel ∨ userDepartment = "corporate" ∨
        5 ≤ resolveLevel rawLevel) →
      ∀ a, a ∈ getUserAccessibleApps userDepartment rawLevel ↔
        ∃ p ∈ APP_ACCESS_MATRIX, a ∈ p.2) ∧
    (¬(10 ≤ resolveLevel rawLevel ∨ userDepartment = "corporate" ∨
        5 ≤ resolveLevel rawLevel) →
      ∀ a, a ∈ getUserAccessibleApps userDepartment rawLevel ↔
        (a ∈ (APP_ACCESS_MATRIX.lookup "universal").getD [] ∨
         ∃ apps, APP_ACCESS_MATRIX.lookup userDepartment = some apps ∧ a ∈ apps)) := by
  simp only [getUserAccessibleApps, PERMISSION_LEVELS_DEVELOPER, PERMISSION_LEVELS_CORPORATE]
  split_ifs with h10 hc
  · refine ⟨nodup_jsDedup _, fun _ a => ?_, fun hn => absurd (Or.inl h10) hn⟩
    rw [mem_jsDedup]
    exact mem_allMatrixApps a
  · refine ⟨nodup_jsDedup _, fun _ a => ?_, fun hn => ?_⟩
    · rw [mem_jsDedup]
      exact mem_allMatrixApps a
    · exact absurd (hc.elim (fun hh => Or.inr (Or.inl hh))
        (fun hh => Or.inr (Or.inr hh))) hn
  · have hnot : ¬(10 ≤ resolveLevel rawLevel ∨ userDepartment = "corporate" ∨
        5 ≤ resolveLevel rawLevel) := by
      rintro (hh | hh | hh)
      · exact h10 hh
      · exact hc (Or.inl hh)
      · exact hc (Or.inr hh)
    cases hm : APP_ACCESS_MATRIX.lookup userDepartment with
    | none =>
      refine ⟨nodup_jsDedup _, fun hyes => absurd hyes hnot, fun _ a => ?_⟩
      rw [mem_jsDedup]
      simp
    | some deptApps =>
      refine ⟨nodup_jsDedup _, fun hyes => absurd hyes hnot, fun _ a => ?_⟩
      rw [mem_jsDedup, List.mem_append]
      constructor
      · rintro (hh | hh)
        · exact Or.inl hh
        · exact Or.inr ⟨deptApps, rfl, hh⟩
      · rintro (hh | ⟨apps, happ, hh⟩)
        · exact Or.inl hh
        · obtain rfl : deptApps = apps := by injection happ
          exact Or.inr hh

/-- Witness for C5 at concrete profiles on both sides of the privilege test. -/
theorem getUserAccessibleApps_spec_witness :
    "oam-basic" ∈ getUserAccessibleApps "moderation" (some 3) ∧
    "oam-corporate" ∈ getUserAccessibleApps "hr" (some 10) := by
  constructor
  · exact ((getUserAccessibleApps_spec "moderation" (some 3)).2.2
      (by decide) "oam-basic").mpr (by decide)
  · exact ((getUserAccessibleApps_spec "hr" (some 10)).2.1
      (by decide) "oam-corporate").mpr (by decide)

/-- C7: for thresholds whose reject bound lies below the approve bound (the
defaults 40 < 85 in particular), the recommendation is "approve" exactly
when the overall score reaches the auto-approve threshold, "reject" exactly
when it is at most the auto-reject threshold, "review" otherwise; score 90
yields "approve", 30 "reject" and 60 "review" under the defaults. -/
theorem recommendation_thresholds (t : Thresholds)
    (hlt : t.autoReject < t.autoApprove) :
    (∀ s : Nat,
      (recommendationFor s t = "approve" ↔ t.autoApprove ≤ s) ∧
      (recommendationFor s t = "reject" ↔ s ≤ t.autoReject) ∧
      (recommendationFor s t = "review" ↔ t.autoReject < s ∧ s < t.autoApprove)) ∧
    recommendationFor 90 defaultThresholds = "approve" ∧
    recommendationFor 30 defaultThresholds = "reject" ∧
    recommendationFor 60 defaultThresholds = "review" := by
  refine ⟨fun s => ?_, rfl, rfl, rfl⟩
  simp only [recommendationFor]
  split_ifs with h1 h2
  · refine ⟨?_, ?_, ?_⟩ <;> simp_all <;> omega
  · refine ⟨?_, ?_, ?_⟩ <;> simp_all
  · refine ⟨?_, ?_, ?_⟩ <;> simp_all

/-- Witness for C7 at the default thresholds. -/
theorem recommendation_thresholds_witness :
    recommendationFor 90 defaultThresholds = "approve" ∧
    recommendationFor 30 defaultThresholds = "reject" ∧
    recommendationFor 60 defaultThresholds = "review" :=
  (recommendation_thresholds defaultThresholds (by decide)).2

/-- Round-half-up of `100 * c / n` never exceeds 100 when `c ≤ n`. -/
theorem roundPct_le_100 (c n : Nat) (hc : c ≤ n) (hn : 0 < n) : roundPct c n ≤ 100 := by
  unfold roundPct
  have h2n : 0 < 2 * n := by omega
  have h1 : 200 * c ≤ 200 * n := Nat.mul_le_mul_left 200 hc
  have h2 : 200 * c + n < 101 * (2 * n) := by omega
  have := (Nat.div_lt_iff_lt_mul h2n).mpr h2
  omega

/-- C10: on a quiz field with a non-empty questions array the scorer yields
a score of at most 100 (its codomain is the naturals, so it is an integer at
least 0); a missing or non-array response scores 0; with an empty questions
array and a present response the division `0/0` is not defined (NaN),
witnessing that the non-emptiness precondition is required. -/
theorem evaluateQuizResponse_spec :
    (∀ (answers : Option (List Nat)) (questions : List Nat), questions ≠ [] →
      ∃ k, evaluateQuizResponse answers questions = some k ∧ k ≤ 100) ∧
    (∀ questions : List Nat, evaluateQuizResponse none questions = some 0) ∧
    (∀ answers : List Nat, evaluateQuizResponse (some answers) [] = none) := by
  refine ⟨?_, fun _ => rfl, fun _ => rfl⟩
  intro answers questions hq
  cases answers with
  | none => exact ⟨0, rfl, by omega⟩
  | some ans =>
    have hn : questions.length ≠ 0 := by
      simpa [List.length_eq_zero] using hq
    simp only [evaluateQuizResponse, hn, if_false]
    refine ⟨_, rfl, ?_⟩
    apply roundPct_le_100
    · calc (questions.enum.filter (fun p => ans.get? p.1 == some p.2)).length
          ≤ questions.enum.length := List.length_filter_le _ _
        _ = questions.length := List.enum_length
    · omega

/-- Witness for C10 on a concrete quiz: two of three answers correct. -/
theorem evaluateQuizResponse_spec_witness :
    evaluateQuizResponse (some [1, 2, 3]) [1, 9, 3] = some 67 ∧ 67 ≤ 100 := by
  obtain ⟨k, hk, hle⟩ :=
    evaluateQuizResponse_spec.1 (some [1, 2, 3]) [1, 9, 3] (by decide)
  have h67 : evaluateQuizResponse (some [1, 2, 3]) [1, 9, 3] = some 67 := by decide
  exact ⟨h67, by omega⟩

/-- Every returned (non-thrown) result of the blacklisted-roles check and
what follows it is ineligible: the only `{eligible: true}` return lies
beyond the throwing fetch. -/
theorem formRolesCheck_ok (reqs : FormRequirements) (u : FUser)
    (r : EligibilityResult) (h : formRolesCheck reqs u = Except.ok r) :
    r.eligible = false := by
  unfold formRolesCheck at h
  split at h
  · split_ifs at h
    · injection h with h'
      subst h'
      rfl
    · simp [formSubmissionsQuery, Except.map] at h
  · simp [formSubmissionsQuery, Except.map] at h

/-- Every returned result of the required-departments check onwards is
ineligible. -/
theorem formDeptsCheck_ok (reqs : FormRequirements) (u : FUser)
    (r : EligibilityResult) (h : formDeptsCheck reqs u = Except.ok r) :
    r.eligible = false := by
  unfold formDeptsCheck at h
  split at h
  · split_ifs at h
    · exact formRolesCheck_ok reqs u r h
    · injection h with h'
      subst h'
      rfl
  · exact formRolesCheck_ok reqs u r h

/-- Every returned result of the days-active check onwards is ineligible. -/
theorem formDaysCheck_ok (reqs : FormRequirements) (u : FUser) (now : Int)
    (r : EligibilityResult) (h : formDaysCheck reqs u now = Except.ok r) :
    r.eligible = false := by
  unfold formDaysCheck at h
  split at h
  · split_ifs at h
    · injection h with h'
      subst h'
      rfl
    · exact formDeptsCheck_ok reqs u r h
  · exact formDeptsCheck_ok reqs u r h

/-- Every returned result of the whole requirement cascade is ineligible. -/
theorem formLevelCheck_ok (reqs : FormRequirements) (u : FUser) (now : Int)
    (r : EligibilityResult) (h : formLevelCheck reqs u now = Except.ok r) :
    r.eligible = false := by
  unfold formLevelCheck at h
  split at h
  · split_ifs at h
    · injection h with h'
      subst h'
      rfl
    · exact formDaysCheck_ok reqs u now r h
  · exact formDaysCheck_ok reqs u now r h

/-- When the profile avoids every blacklisted role the check proceeds to
the submissions fetch, which throws. -/
theorem formRolesCheck_pass (reqs : FormRequirements) (u : FUser)
    (h : ∀ rs, reqs.blacklistedRoles = some rs → ∀ r, u.role = some r → r ∉ rs) :
    formRolesCheck reqs u = Except.error "Cannot combine multiple orderBy calls" := by
  unfold formRolesCheck
  split
  · next rs hrs =>
    have hcond : (match u.role with
        | some r => decide (r ∈ rs)
        | none => false) = false := by
      cases hr : u.role with
      | none => rfl
      | some r => exact decide_eq_false (h rs hrs r hr)
    rw [hcond]
    simp [formSubmissionsQuery, Except.map]
  · rfl

/-- When the profile's department is allow-listed the check delegates. -/
theorem formDeptsCheck_pass (reqs : FormRequirements) (u : FUser)
    (h : ∀ ds, reqs.requiredDepartments = some ds →
      ∃ d, u.department = some d ∧ d ∈ ds) :
    formDeptsCheck reqs u = formRolesCheck reqs u := by
  unfold formDeptsCheck
  split
  · next ds hds =>
    have hcond : (match u.department with
        | some d => decide (d ∈ ds)
        | none => false) = true := by
      obtain ⟨d, hd, hdin⟩ := h ds hds
      rw [hd]
      exact decide_eq_true hdin
    rw [hcond]
    simp
  · rfl

/-- When the account is old enough (or the bound is falsy, or the creation
date is absent) the days-active check delegates. -/
theorem formDaysCheck_pass (reqs : FormRequirements) (u : FUser) (now : Int)
    (h : ∀ m, reqs.minDaysActive = some m →
      m = 0 ∨ ∀ c, u.createdAt = some c → m * 86400000 ≤ now - c) :
    formDaysCheck reqs u now = formDeptsCheck reqs u := by
  unfold formDaysCheck
  split
  · next m hm =>
    have hcond : (m != 0 && (match u.createdAt with
        | some c => decide (now - c < m * 86400000)
        | none => false)) = false := by
      rcases h m hm with rfl | hc
      · simp
      · cases hca : u.createdAt with
        | none => simp
        | some c =>
          have hlt : ¬(now - c < m * 86400000) := not_lt.mpr (hc c hca)
          simp [hlt]
    rw [hcond]
    simp
  · rfl

/-- When the profile's level meets the bound (or the bound is falsy, or the
level is absent) the min-level check delegates. -/
theorem formLevelCheck_pass (reqs : FormRequirements) (u : FUser) (now : Int)
    (h : ∀ m, reqs.minLevel = some m → m = 0 ∨ ∀ l, u.level = some l → m ≤ l) :
    formLevelCheck reqs u now = formDaysCheck reqs u now := by
  unfold formLevelCheck
  split
  · next m hm =>
    have hcond : (m != 0 && (match u.level with
        | some l => decide (l < m)
        | none => false)) = false := by
      rcases h m hm with rfl | hl
      · simp
      · cases hul : u.level with
        | none => simp
        | some l =>
          have hlt : ¬(l < m) := not_lt.mpr (hl l hul)
          simp [hlt]
    rw [hcond]
    simp
  · rfl

/-- With a pending or approved submission present the duplicate guard
fails. -/
theorem formDupCheck_blocks (subs : List Submission)
    (h : ∃ s ∈ subs, s.status = "pending" ∨ s.status = "approved") :
    formDupCheck subs = ⟨false, some "Already submitted or approved"⟩ := by
  unfold formDupCheck
  obtain ⟨s, hs, hstat⟩ := h
  have hlen : subs.length > 0 := List.length_pos.mpr (List.ne_nil_of_mem hs)
  rw [if_pos hlen]
  have hany : subs.any (fun s => s.status == "pending" || s.status == "approved") = true := by
    rw [List.any_eq_true]
    refine ⟨s, hs, ?_⟩
    rcases hstat with h | h
    · simp [h]
    · simp [h]
  rw [if_pos hany]

/-- With no pending or approved submission the duplicate guard passes. -/
theorem formDupCheck_pass (subs : List Submission)
    (h : ∀ s ∈ subs, s.status ≠ "pending" ∧ s.status ≠ "approved") :
    formDupCheck subs = ⟨true, none⟩ := by
  unfold formDupCheck
  split_ifs with hlen hany
  · exfalso
    rw [List.any_eq_true] at hany
    obtain ⟨s, hs, hp⟩ := hany
    rw [Bool.or_eq_true] at hp
    rcases hp with hp | hp
    · exact (h s hs).1 (by simpa using hp)
    · exact (h s hs).2 (by simpa using hp)
  · rfl
  · rfl

/-- C6 (code bug): the claimed duplicate guard is the source's evident
intent — its very expression, `formDupCheck`, blocks exactly on a pending
or approved submission (`formDupCheck_blocks` / `formDupCheck_pass`) — but
that code is unreachable: the submissions fetch chains two order-by calls
on one query and the Firebase SDK throws, so every invocation that passes
the requirement checks raises the query error instead of consulting
submissions, and no invocation ever returns `{eligible: true}`. -/
theorem checkFormEligibility_unreachable_guard (f : Form) (u : FUser) (now : Int)
    (h1 : ∀ m, (f.requirements.getD ⟨none, none, none, none⟩).minLevel = some m →
      m = 0 ∨ ∀ l, u.level = some l → m ≤ l)
    (h2 : ∀ m, (f.requirements.getD ⟨none, none, none, none⟩).minDaysActive = some m →
      m = 0 ∨ ∀ c, u.createdAt = some c → m * 86400000 ≤ now - c)
    (h3 : ∀ ds, (f.requirements.getD ⟨none, none, none, none⟩).requiredDepartments = some ds →
      ∃ d, u.department = some d ∧ d ∈ ds)
    (h4 : ∀ rs, (f.requirements.getD ⟨none, none, none, none⟩).blacklistedRoles = some rs →
      ∀ r, u.role = some r → r ∉ rs) :
    checkFormEligibility (some f) (some u) now =
      Except.error "Cannot combine multiple orderBy calls" ∧
    (∀ (form : Option Form) (user : Option FUser) (t : Int) (r : EligibilityResult),
      checkFormEligibility form user t = Except.ok r → r.eligible = false) := by
  constructor
  · show formLevelCheck (f.requirements.getD ⟨none, none, none, none⟩) u now = _
    rw [formLevelCheck_pass _ _ _ h1, formDaysCheck_pass _ _ _ h2,
        formDeptsCheck_pass _ _ h3, formRolesCheck_pass _ _ h4]
  · intro form user t r h
    cases form with
    | none =>
      simp only [checkFormEligibility] at h
      injection h with h'
      subst h'
      rfl
    | some f' =>
      cases user with
      | none =>
        simp only [checkFormEligibility] at h
        injection h with h'
        subst h'
        rfl
      | some u' =>
        simp only [checkFormEligibility] at h
        exact formLevelCheck_ok _ u' t r h

/-- Witness for C6: a requirement-free form and an existing user reach the
broken fetch and the call raises instead of returning a result. -/
theorem checkFormEligibility_unreachable_guard_witness :
    checkFormEligibility (some ⟨none⟩) (some ⟨none, none, none, none⟩) 0 =
      Except.error "Cannot combine multiple orderBy calls" :=
  (checkFormEligibility_unreachable_guard ⟨none⟩ ⟨none, none, none, none⟩ 0
    (fun m hm => by cases hm) (fun m hm => by cases hm)
    (fun ds hds => by cases hds) (fun rs hrs => by cases hrs)).1

/-- C8: registering for a session whose `capacity.current` already equals
`capacity.max` fails with "Session is full" and leaves the stored session —
in particular `capacity.current` and `attendees` — unchanged; more
generally, every failed registration leaves the stored session unchanged,
because both writes are issued only after every guard passed. -/
theorem registerForSession_capacity_guard :
    (∀ (s : Session) (user : Option SUser) (userId : String) (now : Int),
      s.capacity.current = s.capacity.max →
      registerForSession (some s) user userId now =
        (Except.error "Session is full", some s)) ∧
    (∀ (store : Option Session) (user : Option SUser) (userId : String)
        (now : Int) (e : String),
      (registerForSession store user userId now).1 = Except.error e →
      (registerForSession store user userId now).2 = store) := by
  constructor
  · intro s user userId now h
    simp only [registerForSession]
    rw [if_pos (ge_of_eq h)]
  · intro store user userId now e h
    cases store with
    | none => rfl
    | some s =>
      simp only [registerForSession] at h ⊢
      split_ifs at h ⊢ <;> rfl

/-- Witness for C8 on a concrete full session. -/
theorem registerForSession_capacity_guard_witness :
    registerForSession (some ⟨⟨0, 5, 5⟩, none, []⟩) none "u1" 0 =
      (Except.error "Session is full", some ⟨⟨0, 5, 5⟩, none, []⟩) :=
  registerForSession_capacity_guard.1 ⟨⟨0, 5, 5⟩, none, []⟩ none "u1" 0 rfl

/-- The transition table read the handler performs, as a disjunction over
the four known statuses. -/
theorem validTransitions_contains (s t : String) :
    ((validTransitions.lookup s).getD []).contains t = true ↔
      ((s = "pending" ∧ t = "in_progress") ∨
       (s = "in_progress" ∧ t = "under_review") ∨
       (s = "in_progress" ∧ t = "pending") ∨
       (s = "under_review" ∧ t = "completed") ∨
       (s = "under_review" ∧ t = "in_progress")) := by
  by_cases h1 : s = "pending"
  · subst h1
    have hlk : validTransitions.lookup "pending" = some ["in_progress"] := rfl
    simp [hlk, List.contains_eq_any_beq]
  · by_cases h2 : s = "in_progress"
    · subst h2
      have hlk : validTransitions.lookup "in_progress" =
          some ["under_review", "pending"] := rfl
      simp [hlk, List.contains_eq_any_beq]
    · by_cases h3 : s = "under_review"
      · subst h3
        have hlk : validTransitions.lookup "under_review" =
            some ["completed", "in_progress"] := rfl
        simp [hlk, List.contains_eq_any_beq]
      · by_cases h4 : s = "completed"
        · subst h4
          have hlk : validTransitions.lookup "completed" = some [] := rfl
          simp [hlk]
        · have e1 : (s == "pending") = false := beq_eq_false_iff_ne.mpr h1
          have e2 : (s == "in_progress") = false := beq_eq_false_iff_ne.mpr h2
          have e3 : (s == "under_review") = false := beq_eq_false_iff_ne.mpr h3
          have e4 : (s == "completed") = false := beq_eq_false_iff_ne.mpr h4
          have hlk : validTransitions.lookup s = none := by
            simp [validTransitions, List.lookup, e1, e2, e3, e4]
          simp [hlk, h1, h2, h3, h4]

/-- C9: the status update succeeds exactly for an authorized requester (the
assigned user or a manager, permission level at least 5) performing one of
pending→in_progress, in_progress→under_review, in_progress→pending,
under_review→completed (managers only) or under_review→in_progress; success
writes the target status, every rejection leaves the status unchanged, and
no transition leaves "completed". -/
theorem updateAssignmentStatus_spec (a : Assignment) (target userId : String)
    (rawLevel : Option Nat) :
    ((updateAssignmentStatus a target userId rawLevel).1 = Except.ok () ↔
      ((a.assignedTo = userId ∨ 5 ≤ rawLevel.getD 0) ∧
       ((a.status = "pending" ∧ target = "in_progress") ∨
        (a.status = "in_progress" ∧ target = "under_review") ∨
        (a.status = "in_progress" ∧ target = "pending") ∨
        (a.status = "under_review" ∧ target = "completed" ∧ 5 ≤ rawLevel.getD 0) ∨
        (a.status = "under_review" ∧ target = "in_progress")))) ∧
    ((updateAssignmentStatus a target userId rawLevel).1 = Except.ok () →
      (updateAssignmentStatus a target userId rawLevel).2 =
        { a with status := target }) ∧
    (∀ e, (updateAssignmentStatus a target userId rawLevel).1 = Except.error e →
      (updateAssignmentStatus a target userId rawLevel).2 = a) ∧
    (a.status = "completed" →
      (updateAssignmentStatus a target userId rawLevel).1 ≠ Except.ok ()) := by
  simp only [updateAssignmentStatus]
  split_ifs with hg1 hg2 hg3
  · -- not authorized
    simp only [Bool.and_eq_true, Bool.not_eq_true', beq_eq_false_iff_ne,
               decide_eq_false_iff_not] at hg1
    obtain ⟨hne, hnm⟩ := hg1
    refine ⟨⟨fun h => absurd h (by simp), ?_⟩, fun h => absurd h (by simp),
            fun e _ => rfl, fun _ => by simp⟩
    rintro ⟨hauth, -⟩
    exact absurd (hauth.resolve_left hne) hnm
  · -- non-manager assigned user may not approve from under_review
    simp only [Bool.and_eq_true, Bool.not_eq_true', decide_eq_false_iff_not,
               beq_iff_eq, bne_iff_ne] at hg2
    obtain ⟨⟨⟨hnm, hass⟩, hur⟩, hti⟩ := hg2
    refine ⟨⟨fun h => absurd h (by simp), ?_⟩, fun h => absurd h (by simp),
            fun e _ => rfl, fun _ => by simp⟩
    rintro ⟨-, hp | hp | hp | hp | hp⟩
    · exact absurd (hur.symm.trans hp.1) (by decide)
    · exact absurd (hur.symm.trans hp.1) (by decide)
    · exact absurd (hur.symm.trans hp.1) (by decide)
    · exact absurd hp.2.2 hnm
    · exact absurd hp.2 hti
  · -- invalid transition
    rw [Bool.not_eq_true'] at hg3
    refine ⟨⟨fun h => absurd h (by simp), ?_⟩, fun h => absurd h (by simp),
            fun e _ => rfl, fun _ => by simp⟩
    rintro ⟨-, hpair⟩
    have : ((validTransitions.lookup a.status).getD []).contains target = true := by
      refine (validTransitions_contains a.status target).mpr ?_
      rcases hpair with hp | hp | hp | hp | hp
      · exact Or.inl hp
      · exact Or.inr (Or.inl hp)
      · exact Or.inr (Or.inr (Or.inl hp))
      · exact Or.inr (Or.inr (Or.inr (Or.inl ⟨hp.1, hp.2.1⟩)))
      · exact Or.inr (Or.inr (Or.inr (Or.inr hp)))
    rw [this] at hg3
    exact absurd hg3 (by decide)
  · -- success path
    have hauth : a.assignedTo = userId ∨ 5 ≤ rawLevel.getD 0 := by
      by_contra hcon
      push_neg at hcon
      have e1 : (a.assignedTo == userId) = false := beq_eq_false_iff_ne.mpr hcon.1
      have e2 : decide (5 ≤ rawLevel.getD 0) = false := decide_eq_false (by omega)
      exact hg1 (by rw [e1, e2]; rfl)
    have htrans : ((validTransitions.lookup a.status).getD []).contains target = true := by
      rcases Bool.eq_false_or_eq_true
          (((validTransitions.lookup a.status).getD []).contains target) with ht | hf
      · exact ht
      · exact absurd (by rw [hf]; rfl) hg3
    have hpairs := (validTransitions_contains a.status target).mp htrans
    refine ⟨⟨fun _ => ⟨hauth, ?_⟩, fun _ => rfl⟩, fun _ => rfl,
            fun e h => absurd h (by simp), fun hcomp _ => ?_⟩
    · rcases hpairs with hp | hp | hp | hp | hp
      · exact Or.inl hp
      · exact Or.inr (Or.inl hp)
      · exact Or.inr (Or.inr (Or.inl hp))
      · refine Or.inr (Or.inr (Or.inr (Or.inl ⟨hp.1, hp.2, ?_⟩)))
        by_contra hm
        have hass : a.assignedTo = userId := hauth.resolve_right hm
        have e1 : (a.assignedTo == userId) = true := beq_iff_eq.mpr hass
        have e2 : decide (5 ≤ rawLevel.getD 0) = false := decide_eq_false hm
        have e3 : (a.status == "under_review") = true := beq_iff_eq.mpr hp.1
        exact hg2 (by rw [e1, e2, e3, hp.2]; decide)
      · exact Or.inr (Or.inr (Or.inr (Or.inr hp)))
    · rcases hpairs with hp | hp | hp | hp | hp
      · exact absurd (hcomp.symm.trans hp.1) (by decide)
      · exact absurd (hcomp.symm.trans hp.1) (by decide)
      · exact absurd (hcomp.symm.trans hp.1) (by decide)
      · exact absurd (hcomp.symm.trans hp.1) (by decide)
      · exact absurd (hcomp.symm.trans hp.1) (by decide)

/-- Witness for C9: a manager completes an assignment under review. -/
theorem updateAssignmentStatus_spec_witness :
    updateAssignmentStatus ⟨"u1", "under_review"⟩ "completed" "mgr" (some 7) =
      (Except.ok (), ⟨"u1", "completed"⟩) := by
  have h := updateAssignmentStatus_spec ⟨"u1", "under_review"⟩ "completed" "mgr" (some 7)
  have hok : (updateAssignmentStatus ⟨"u1", "under_review"⟩ "completed" "mgr"
      (some 7)).1 = Except.ok () := h.1.mpr (by decide)
  have hsnd := h.2.1 hok
  exact Prod.ext hok hsnd

end DOF
